import Mathlib

/-!
Verification of the Bluetooth Seal HUD Clock firmware (`src/Buletooth_Clock.ino`).

The development shallowly embeds the firmware's time model, serial-line
handler, incremental rendering engine, environment-line hysteresis, layout
auto-fit loop, and the 1 Hz catch-up scheduler loop as Lean definitions, and
proves the spec's claims about them.

Modelling conventions:
* C `int` / `long` values are modelled as `Int` (the firmware keeps every
  field far away from 16-bit overflow); C truncating division/modulo are
  `Int.tdiv` / `Int.tmod`; a C cast to `uint8_t` is `Int.emod · 256`.
* A C string (`char*`) is modelled as the `List Char` of its bytes; `strlen`
  semantics are captured by cutting the list at the first NUL byte.
* Fallible operations (`parseTime`'s `bool` + out-parameter, the
  out-of-bounds array read in `daysInMonth`) return `Option`.
* Display primitives are not executed; a rendering call returns the list of
  draw/erase operations it would issue together with the updated shadow
  state, mirroring the source's globals (`prevTimeStr`, `prevDigitMask`,
  `prevDateStr`, `prevFillW`).
-/

set_option maxHeartbeats 1000000
set_option maxRecDepth 8192

/-- Clock state, from `struct ClockTime`: optional calendar fields (0 when
unknown), time-of-day fields, and the `hasDate` / `isSet` flags. -/
structure ClockTime where
  year : Int := 0
  month : Int := 0
  day : Int := 0
  hour : Int := 0
  minute : Int := 0
  second : Int := 0
  hasDate : Bool := false
  isSet : Bool := false
deriving Repr, DecidableEq

/-- The zero-initialised global `ct` at program start. -/
def initialCT : ClockTime := {}

/-- Character of a C string at byte offset `i` (reads past the checked
length never influence results; the default is the NUL byte). -/
def chAt (s : List Char) (i : Nat) : Char := s.getD i (Char.ofNat 0)

/-- `isDigitN` from the source: `c >= '0' && c <= '9'`. -/
def isDigitN (c : Char) : Bool := decide ('0' ≤ c ∧ c ≤ '9')

/-- Numeric value of a digit byte, `c - '0'` in C. -/
def c2i (c : Char) : Int := (c.toNat : Int) - 48

/-- `to2` from the source: the two-digit number at offset `i`, or `-1` if
either byte is not a decimal digit. -/
def to2 (s : List Char) (i : Nat) : Int :=
  if isDigitN (chAt s i) ∧ isDigitN (chAt s (i + 1)) then
    c2i (chAt s i) * 10 + c2i (chAt s (i + 1))
  else -1

/-- `to4` from the source: the four-digit number at offset `i`, or `-1` if
any byte is not a decimal digit. -/
def to4 (s : List Char) (i : Nat) : Int :=
  if isDigitN (chAt s i) ∧ isDigitN (chAt s (i + 1)) ∧ isDigitN (chAt s (i + 2)) ∧
      isDigitN (chAt s (i + 3)) then
    c2i (chAt s i) * 1000 + c2i (chAt s (i + 1)) * 100 + c2i (chAt s (i + 2)) * 10 +
      c2i (chAt s (i + 3))
  else -1

/-- The C-string view `parseTime` works on: leading spaces/tabs skipped by
the `while (*s==' '||*s=='\t') s++` loop, then the bytes up to the first NUL
(what `strlen` and the indexed accesses can observe). -/
def cstr (s : List Char) : List Char :=
  (s.dropWhile (fun c => c = ' ' ∨ c = '\t')).takeWhile (fun c => c ≠ Char.ofNat 0)

/-- Body of `parseTime` after the whitespace skip, operating on the
C-string content `s`. Mirrors the two fixed-offset branches of the source;
`none` is the `return false` path (the caller's `out` is not written). -/
def parseCore (s : List Char) : Option ClockTime :=
  let len := s.length
  if 8 ≤ len ∧ isDigitN (chAt s 0) = true ∧ isDigitN (chAt s 1) = true ∧ chAt s 2 = ':' ∧
      isDigitN (chAt s 3) = true ∧ isDigitN (chAt s 4) = true ∧ chAt s 5 = ':' ∧
      isDigitN (chAt s 6) = true ∧ isDigitN (chAt s 7) = true then
    let hour := to2 s 0
    let minute := to2 s 3
    let second := to2 s 6
    if hour < 0 ∨ 23 < hour ∨ minute < 0 ∨ 59 < minute ∨ second < 0 ∨ 59 < second then
      none
    else
      some { year := 0, month := 0, day := 0, hour := hour, minute := minute,
             second := second, hasDate := false, isSet := true }
  else if 19 ≤ len ∧ isDigitN (chAt s 0) = true then
    if ¬(chAt s 4 = '-' ∧ chAt s 7 = '-' ∧ chAt s 10 = ' ' ∧ chAt s 13 = ':' ∧
        chAt s 16 = ':') then
      none
    else
      let year := to4 s 0
      let month := to2 s 5
      let day := to2 s 8
      let hour := to2 s 11
      let minute := to2 s 14
      let second := to2 s 17
      if year < 1970 ∨ month < 1 ∨ 12 < month ∨ day < 1 ∨ 31 < day then none
      else if hour < 0 ∨ 23 < hour ∨ minute < 0 ∨ 59 < minute ∨ second < 0 ∨ 59 < second then
        none
      else
        some { year := year, month := month, day := day, hour := hour, minute := minute,
               second := second, hasDate := decide (0 < year), isSet := true }
  else none

/-- `parseTime` from the source: skip leading blanks, then match one of the
two fixed-offset grammars. -/
def parseTime (s : List Char) : Option ClockTime := parseCore (cstr s)

/-- `isLeap` from the source, with C's truncating `%`:
`(y%4==0 && y%100!=0) || (y%400==0)`. -/
def isLeap (y : Int) : Bool :=
  (Int.tmod y 4 = 0 ∧ Int.tmod y 100 ≠ 0) ∨ Int.tmod y 400 = 0

/-- The month-length table `d[12]` from `daysInMonth`. -/
def MONTH_DAYS : List Int := [31, 28, 31, 30, 31, 30, 31, 31, 30, 31, 30, 31]

/-- `daysInMonth` from the source. The read `d[m-1]` is undefined behaviour
when `m - 1` is outside `0..11`; that case is `none`. -/
def daysInMonth (y m : Int) : Option Int :=
  if m = 2 then some (if isLeap y then 29 else 28)
  else if 1 ≤ m ∧ m ≤ 12 then some (MONTH_DAYS.getD (m - 1).toNat 0)
  else none

/-- `tickOneSecond` from the source: the in-place cascade of rollovers,
sequenced exactly as the four `if` statements execute. `none` is the
undefined-behaviour path through `daysInMonth`. -/
def tickOneSecond (t : ClockTime) : Option ClockTime :=
  let t1 : ClockTime := { t with second := t.second + 1 }
  let t2 : ClockTime :=
    if 60 ≤ t1.second then { t1 with second := 0, minute := t1.minute + 1 } else t1
  let t3 : ClockTime :=
    if 60 ≤ t2.minute then { t2 with minute := 0, hour := t2.hour + 1 } else t2
  if 24 ≤ t3.hour then
    let t4 : ClockTime := { t3 with hour := 0 }
    if t4.hasDate = true ∧ 1970 ≤ t4.year then
      let t5 : ClockTime := { t4 with day := t4.day + 1 }
      match daysInMonth t5.year t5.month with
      | none => none
      | some dim =>
        if dim < t5.day then
          let t6 := { t5 with day := 1, month := t5.month + 1 }
          if 12 < t6.month then some { t6 with month := 1, year := t6.year + 1 }
          else some t6
        else some t5
    else some t4
  else some t3

/-- `tickOneSecond` applied `n` times (propagating the undefined-behaviour
case). -/
def tickN : Nat → ClockTime → Option ClockTime
  | 0, t => some t
  | n + 1, t =>
    match tickOneSecond t with
    | none => none
    | some t' => tickN n t'

example : tickOneSecond
    { year := 2024, month := 2, day := 28, hour := 23, minute := 59, second := 59,
      hasDate := true, isSet := true } =
    some { year := 2024, month := 2, day := 29, hour := 0, minute := 0, second := 0,
           hasDate := true, isSet := true } := by decide

example : tickOneSecond
    { year := 2023, month := 2, day := 28, hour := 23, minute := 59, second := 59,
      hasDate := true, isSet := true } =
    some { year := 2023, month := 3, day := 1, hour := 0, minute := 0, second := 0,
           hasDate := true, isSet := true } := by decide

example : parseTime "2024-02-31 00:00:00".toList =
    some { year := 2024, month := 2, day := 31, hour := 0, minute := 0, second := 0,
           hasDate := true, isSet := true } := by decide

example : (parseTime "12:34:56x".toList).isSome = true := by decide

/-- Whatever else `tickOneSecond` does, the `second` field always advances
by one modulo 60 (for an in-range `second`) and stays in range: the later
rollover `if`s never write `second` again. -/
theorem tickOneSecond_second (t t' : ClockTime) (h : tickOneSecond t = some t')
    (h0 : 0 ≤ t.second) (h1 : t.second < 60) :
    t'.second = (t.second + 1) % 60 ∧ 0 ≤ t'.second ∧ t'.second < 60 := by
  simp only [tickOneSecond] at h
  repeat' split at h
  all_goals try exact Option.noConfusion h
  all_goals injection h with h
  all_goals subst h
  all_goals simp_all
  all_goals omega

/-- Iterating `tickOneSecond` `n` times advances `second` by `n` modulo 60. -/
theorem tickN_second (n : Nat) : ∀ t t' : ClockTime, tickN n t = some t' →
    0 ≤ t.second → t.second < 60 →
    t'.second = (t.second + n) % 60 ∧ 0 ≤ t'.second ∧ t'.second < 60 := by
  induction n with
  | zero =>
    intro t t' h h0 h1
    simp only [tickN] at h
    injection h with h
    subst h
    exact ⟨by omega, h0, h1⟩
  | succ n ih =>
    intro t t' h h0 h1
    simp only [tickN] at h
    split at h
    · exact Option.noConfusion h
    · rename_i t1 ht1
      obtain ⟨e1, e2, e3⟩ := tickOneSecond_second t t1 ht1 h0 h1
      obtain ⟨f1, f2, f3⟩ := ih t1 t' h e2 e3
      refine ⟨?_, f2, f3⟩
      rw [f1, e1]
      push_cast
      omega

/-- C1 (counterexample): applying `tickOneSecond` 86400 times to
2024-02-28 23:59:59 does NOT yield 2024-02-29 00:00:00 as the claim states
(86400 one-second steps land on second 59 again, namely on
2024-02-29 23:59:59, while the claimed result has second 0). -/
theorem tickN_86400_not_leap_midnight :
    tickN 86400
      { year := 2024, month := 2, day := 28, hour := 23, minute := 59, second := 59,
        hasDate := true, isSet := true } ≠
    some { year := 2024, month := 2, day := 29, hour := 0, minute := 0, second := 0,
           hasDate := true, isSet := true } := by
  intro h
  have h2 := tickN_second 86400 _ _ h (by norm_num) (by norm_num)
  simp at h2

/-- C1 (amended): a SINGLE `tickOneSecond` step applied to
2024-02-28 23:59:59 yields 2024-02-29 00:00:00 (leap year) and applied to
2023-02-28 23:59:59 yields 2023-03-01 00:00:00, because `daysInMonth` gives
February 29 days in 2024 and 28 in 2023 via the Gregorian rule `isLeap`. -/
theorem tickOneSecond_feb28_rollover :
    tickOneSecond
      { year := 2024, month := 2, day := 28, hour := 23, minute := 59, second := 59,
        hasDate := true, isSet := true } =
    some { year := 2024, month := 2, day := 29, hour := 0, minute := 0, second := 0,
           hasDate := true, isSet := true } ∧
    tickOneSecond
      { year := 2023, month := 2, day := 28, hour := 23, minute := 59, second := 59,
        hasDate := true, isSet := true } =
    some { year := 2023, month := 3, day := 1, hour := 0, minute := 0, second := 0,
           hasDate := true, isSet := true } ∧
    isLeap 2024 = true ∧ isLeap 2023 = false ∧
    daysInMonth 2024 2 = some 29 ∧ daysInMonth 2023 2 = some 28 := by
  decide

/-- Modelled from the spec: the numeric value of the two-digit field at
offset `i` (both bytes assumed decimal digits). -/
def num2 (s : List Char) (i : Nat) : Int := c2i (chAt s i) * 10 + c2i (chAt s (i + 1))

/-- Modelled from the spec: the numeric value of the four-digit field at
offset `i`. -/
def num4 (s : List Char) (i : Nat) : Int :=
  c2i (chAt s i) * 1000 + c2i (chAt s (i + 1)) * 100 + c2i (chAt s (i + 2)) * 10 +
    c2i (chAt s (i + 3))

/-- Decimal digit at offset `i`. -/
def isDig (s : List Char) (i : Nat) : Prop := isDigitN (chAt s i) = true

instance (s : List Char) (i : Nat) : Decidable (isDig s i) := by
  unfold isDig
  infer_instance

/-- Modelled from the spec: the `HH:MM:SS` grammar as the code actually
checks it — digits and `':'` at offsets 0-7 of a line of length at least 8
(trailing bytes are ignored), hour 0-23, minute 0-59, second 0-59. -/
def shortGrammar (t : List Char) : Prop :=
  8 ≤ t.length ∧ isDig t 0 ∧ isDig t 1 ∧ chAt t 2 = ':' ∧ isDig t 3 ∧ isDig t 4 ∧
  chAt t 5 = ':' ∧ isDig t 6 ∧ isDig t 7 ∧
  0 ≤ num2 t 0 ∧ num2 t 0 ≤ 23 ∧ 0 ≤ num2 t 3 ∧ num2 t 3 ≤ 59 ∧ 0 ≤ num2 t 6 ∧ num2 t 6 ≤ 59

/-- Modelled from the spec: the claim's literal `HH:MM:SS (8 characters)`
grammar — exactly eight characters. -/
def shortGrammarExact (t : List Char) : Prop := t.length = 8 ∧ shortGrammar t

/-- Modelled from the spec: the `YYYY-MM-DD HH:MM:SS` grammar — at least 19
characters, literal separators at offsets 4, 7, 10, 13, 16, decimal digits
in every field position, year at least 1970, month 1-12, day 1-31, hour
0-23, minute 0-59, second 0-59. -/
def longGrammar (t : List Char) : Prop :=
  19 ≤ t.length ∧
  chAt t 4 = '-' ∧ chAt t 7 = '-' ∧ chAt t 10 = ' ' ∧ chAt t 13 = ':' ∧ chAt t 16 = ':' ∧
  isDig t 0 ∧ isDig t 1 ∧ isDig t 2 ∧ isDig t 3 ∧ isDig t 5 ∧ isDig t 6 ∧
  isDig t 8 ∧ isDig t 9 ∧ isDig t 11 ∧ isDig t 12 ∧ isDig t 14 ∧ isDig t 15 ∧
  isDig t 17 ∧ isDig t 18 ∧
  1970 ≤ num4 t 0 ∧ 1 ≤ num2 t 5 ∧ num2 t 5 ≤ 12 ∧ 1 ≤ num2 t 8 ∧ num2 t 8 ≤ 31 ∧
  0 ≤ num2 t 11 ∧ num2 t 11 ≤ 23 ∧ 0 ≤ num2 t 14 ∧ num2 t 14 ≤ 59 ∧
  0 ≤ num2 t 17 ∧ num2 t 17 ≤ 59

/-- The range/validity invariant the code actually maintains on clock
values: time-of-day fields in range and, when a date is present, year at
least 1970, month 1-12 and day 1-31. -/
def ClockInv (c : ClockTime) : Prop :=
  0 ≤ c.hour ∧ c.hour < 24 ∧ 0 ≤ c.minute ∧ c.minute < 60 ∧ 0 ≤ c.second ∧ c.second < 60 ∧
  (c.hasDate = true → 1970 ≤ c.year ∧ 1 ≤ c.month ∧ c.month ≤ 12 ∧ 1 ≤ c.day ∧ c.day ≤ 31)

instance (c : ClockTime) : Decidable (ClockInv c) := by
  unfold ClockInv
  infer_instance

theorem isDigitN_iff (c : Char) : isDigitN c = true ↔ 48 ≤ c.toNat ∧ c.toNat ≤ 57 := by
  simp only [isDigitN, decide_eq_true_eq]
  exact Iff.rfl

theorem c2i_bounds (c : Char) (h : isDigitN c = true) : 0 ≤ c2i c ∧ c2i c ≤ 9 := by
  rw [isDigitN_iff] at h
  unfold c2i
  omega

theorem to2_eq_num2 (s : List Char) (i : Nat) (h1 : isDig s i) (h2 : isDig s (i + 1)) :
    to2 s i = num2 s i := by
  unfold to2 num2
  rw [if_pos ⟨h1, h2⟩]

theorem to2_nonneg_digits (s : List Char) (i : Nat) (h : 0 ≤ to2 s i) :
    isDig s i ∧ isDig s (i + 1) := by
  unfold to2 at h
  by_cases hd : isDigitN (chAt s i) = true ∧ isDigitN (chAt s (i + 1)) = true
  · exact hd
  · rw [if_neg hd] at h
    omega

theorem to4_eq_num4 (s : List Char) (i : Nat) (h1 : isDig s i) (h2 : isDig s (i + 1))
    (h3 : isDig s (i + 2)) (h4 : isDig s (i + 3)) : to4 s i = num4 s i := by
  unfold to4 num4
  rw [if_pos ⟨h1, h2, h3, h4⟩]

theorem to4_nonneg_digits (s : List Char) (i : Nat) (h : 0 ≤ to4 s i) :
    isDig s i ∧ isDig s (i + 1) ∧ isDig s (i + 2) ∧ isDig s (i + 3) := by
  unfold to4 at h
  by_cases hd : isDigitN (chAt s i) = true ∧ isDigitN (chAt s (i + 1)) = true ∧
      isDigitN (chAt s (i + 2)) = true ∧ isDigitN (chAt s (i + 3)) = true
  · exact hd
  · rw [if_neg hd] at h
    omega

theorem notDigit_colon : isDigitN ':' = false := by decide

theorem parseCore_isSome_iff (t : List Char) :
    (parseCore t).isSome = true ↔ shortGrammar t ∨ longGrammar t := by
  by_cases hB1 : 8 ≤ t.length ∧ isDigitN (chAt t 0) = true ∧ isDigitN (chAt t 1) = true ∧
      chAt t 2 = ':' ∧ isDigitN (chAt t 3) = true ∧ isDigitN (chAt t 4) = true ∧
      chAt t 5 = ':' ∧ isDigitN (chAt t 6) = true ∧ isDigitN (chAt t 7) = true
  · obtain ⟨hl, h0, h1, hc2, h3, h4, hc5, h6, h7⟩ := hB1
    have e0 := to2_eq_num2 t 0 h0 h1
    have e3 := to2_eq_num2 t 3 h3 h4
    have e6 := to2_eq_num2 t 6 h6 h7
    have b0 := c2i_bounds _ h0
    have b1 := c2i_bounds _ h1
    have b3 := c2i_bounds _ h3
    have b4 := c2i_bounds _ h4
    have b6 := c2i_bounds _ h6
    have b7 := c2i_bounds _ h7
    have hlong : ¬ longGrammar t := by
      intro hL
      obtain ⟨-, -, -, -, -, -, -, -, hd2, -⟩ := hL
      unfold isDig at hd2
      rw [hc2, notDigit_colon] at hd2
      exact Bool.false_ne_true hd2
    simp only [parseCore]
    rw [if_pos ⟨hl, h0, h1, hc2, h3, h4, hc5, h6, h7⟩]
    constructor
    · intro hs
      left
      by_cases hbad : to2 t 0 < 0 ∨ 23 < to2 t 0 ∨ to2 t 3 < 0 ∨ 59 < to2 t 3 ∨
          to2 t 6 < 0 ∨ 59 < to2 t 6
      · rw [if_pos hbad] at hs
        exact absurd hs (by simp)
      · exact ⟨hl, h0, h1, hc2, h3, h4, hc5, h6, h7, by omega, by omega, by omega, by omega,
          by omega, by omega⟩
    · rintro (hS | hL)
      · obtain ⟨-, -, -, -, -, -, -, -, -, r1, r2, r3, r4, r5, r6⟩ := hS
        rw [if_neg (by omega)]
        simp
      · exact absurd hL hlong
  · simp only [parseCore]
    rw [if_neg hB1]
    have hshort : ¬ shortGrammar t := by
      intro hS
      obtain ⟨a1, a2, a3, a4, a5, a6, a7, a8, a9, -⟩ := hS
      exact hB1 ⟨a1, a2, a3, a4, a5, a6, a7, a8, a9⟩
    by_cases hB2 : 19 ≤ t.length ∧ isDigitN (chAt t 0) = true
    · rw [if_pos hB2]
      by_cases hsep : chAt t 4 = '-' ∧ chAt t 7 = '-' ∧ chAt t 10 = ' ' ∧ chAt t 13 = ':' ∧
          chAt t 16 = ':'
      · rw [if_neg (not_not_intro hsep)]
        constructor
        · intro hs
          right
          by_cases hbadD : to4 t 0 < 1970 ∨ to2 t 5 < 1 ∨ 12 < to2 t 5 ∨ to2 t 8 < 1 ∨
              31 < to2 t 8
          · rw [if_pos hbadD] at hs
            exact absurd hs (by simp)
          · rw [if_neg hbadD] at hs
            by_cases hbadT : to2 t 11 < 0 ∨ 23 < to2 t 11 ∨ to2 t 14 < 0 ∨ 59 < to2 t 14 ∨
                to2 t 17 < 0 ∨ 59 < to2 t 17
            · rw [if_pos hbadT] at hs
              exact absurd hs (by simp)
            · obtain ⟨dy0, dy1, dy2, dy3⟩ := to4_nonneg_digits t 0 (by omega)
              obtain ⟨dm0, dm1⟩ := to2_nonneg_digits t 5 (by omega)
              obtain ⟨dd0, dd1⟩ := to2_nonneg_digits t 8 (by omega)
              obtain ⟨dh0, dh1⟩ := to2_nonneg_digits t 11 (by omega)
              obtain ⟨dmi0, dmi1⟩ := to2_nonneg_digits t 14 (by omega)
              obtain ⟨ds0, ds1⟩ := to2_nonneg_digits t 17 (by omega)
              have ey := to4_eq_num4 t 0 dy0 dy1 dy2 dy3
              have em := to2_eq_num2 t 5 dm0 dm1
              have ed := to2_eq_num2 t 8 dd0 dd1
              have eh := to2_eq_num2 t 11 dh0 dh1
              have emi := to2_eq_num2 t 14 dmi0 dmi1
              have es := to2_eq_num2 t 17 ds0 ds1
              exact ⟨hB2.1, hsep.1, hsep.2.1, hsep.2.2.1, hsep.2.2.2.1, hsep.2.2.2.2,
                hB2.2, dy1, dy2, dy3, dm0, dm1, dd0, dd1, dh0, dh1, dmi0, dmi1, ds0, ds1,
                by omega, by omega, by omega, by omega, by omega, by omega, by omega,
                by omega, by omega, by omega, by omega⟩
        · rintro (hS | hL)
          · exact absurd hS hshort
          · obtain ⟨-, -, -, -, -, -, dy0, dy1, dy2, dy3, dm0, dm1, dd0, dd1, dh0, dh1,
              dmi0, dmi1, ds0, ds1, r1, r2, r3, r4, r5, r6, r7, r8, r9, r10, r11⟩ := hL
            have ey := to4_eq_num4 t 0 dy0 dy1 dy2 dy3
            have em := to2_eq_num2 t 5 dm0 dm1
            have ed := to2_eq_num2 t 8 dd0 dd1
            have eh := to2_eq_num2 t 11 dh0 dh1
            have emi := to2_eq_num2 t 14 dmi0 dmi1
            have es := to2_eq_num2 t 17 ds0 ds1
            rw [if_neg (by omega), if_neg (by omega)]
            simp
      · rw [if_pos hsep]
        constructor
        · intro hs
          exact absurd hs (by simp)
        · rintro (hS | hL)
          · exact absurd hS hshort
          · obtain ⟨-, s1, s2, s3, s4, s5, -⟩ := hL
            exact absurd ⟨s1, s2, s3, s4, s5⟩ hsep
    · rw [if_neg hB2]
      constructor
      · intro hs
        exact absurd hs (by simp)
      · rintro (hS | hL)
        · exact absurd hS hshort
        · obtain ⟨l1, -, -, -, -, -, l2, -⟩ := hL
          exact absurd ⟨l1, l2⟩ hB2

instance (t : List Char) : Decidable (shortGrammar t) := by
  unfold shortGrammar
  infer_instance

instance (t : List Char) : Decidable (shortGrammarExact t) := by
  unfold shortGrammarExact
  infer_instance

instance (t : List Char) : Decidable (longGrammar t) := by
  unfold longGrammar
  infer_instance

theorem parseCore_fields (t : List Char) (c : ClockTime) (h : parseCore t = some c) :
    c.isSet = true ∧ (c.hasDate = true ↔ longGrammar t) := by
  have hiff := parseCore_isSome_iff t
  rw [h] at hiff
  simp only [Option.isSome_some, true_iff] at hiff
  simp only [parseCore] at h
  split_ifs at h with hB1 hbad hB2 hsep hbadD hbadT
  · -- short-form success
    obtain ⟨hl, h0, h1, hc2, h3, h4, hc5, h6, h7⟩ := hB1
    have hlong : ¬ longGrammar t := by
      intro hL
      obtain ⟨-, -, -, -, -, -, -, -, hd2, -⟩ := hL
      unfold isDig at hd2
      rw [hc2, notDigit_colon] at hd2
      exact Bool.false_ne_true hd2
    injection h with h
    subst h
    simp [hlong]
  · -- long-form success
    have hshort : ¬ shortGrammar t := by
      intro hS
      obtain ⟨a1, a2, a3, a4, a5, a6, a7, a8, a9, -⟩ := hS
      exact hB1 ⟨a1, a2, a3, a4, a5, a6, a7, a8, a9⟩
    have hlong : longGrammar t := hiff.resolve_left hshort
    injection h with h
    subst h
    simp [hlong]
    omega

theorem parseCore_ClockInv (t : List Char) (c : ClockTime) (h : parseCore t = some c) :
    ClockInv c := by
  simp only [parseCore] at h
  split_ifs at h with hB1 hbad hB2 hsep hbadD hbadT
  · injection h with h
    subst h
    unfold ClockInv
    dsimp only
    refine ⟨by omega, by omega, by omega, by omega, by omega, by omega, ?_⟩
    intro hfalse
    exact absurd hfalse (by simp)
  · injection h with h
    subst h
    unfold ClockInv
    dsimp only
    exact ⟨by omega, by omega, by omega, by omega, by omega, by omega,
      fun _ => ⟨by omega, by omega, by omega, by omega, by omega⟩⟩

theorem daysInMonth_bounds (y m d : Int) (h1 : 1 ≤ m) (h2 : m ≤ 12)
    (h : daysInMonth y m = some d) : 28 ≤ d ∧ d ≤ 31 := by
  unfold daysInMonth at h
  split_ifs at h with hm2 hleap hrange
  · injection h with h
    omega
  · injection h with h
    omega
  · injection h with h
    subst h
    interval_cases m <;> first | (exact absurd rfl hm2) | decide

theorem daysInMonth_isSome (y m : Int) (h1 : 1 ≤ m) (h2 : m ≤ 12) :
    (daysInMonth y m).isSome = true := by
  unfold daysInMonth
  split_ifs with hm2 hleap hrange
  · simp
  · simp
  · simp
  · exact absurd ⟨h1, h2⟩ hrange

theorem tickOneSecond_inv (c c' : ClockTime) (hc : ClockInv c) (h : tickOneSecond c = some c') :
    ClockInv c' := by
  obtain ⟨hh0, hh1, hm0, hm1, hs0, hs1, hdate⟩ := hc
  simp only [tickOneSecond] at h
  repeat' split at h
  all_goals try exact Option.noConfusion h
  all_goals injection h with h
  all_goals subst h
  all_goals unfold ClockInv
  all_goals dsimp only at *
  all_goals refine ⟨by omega, by omega, by omega, by omega, by omega, by omega, fun hD => ?_⟩
  all_goals obtain ⟨q1, q2, q3, q4, q5⟩ := hdate hD
  all_goals try omega
  all_goals obtain ⟨db1, db2⟩ := daysInMonth_bounds c.year c.month _ q2 q3 (by assumption)
  all_goals omega

theorem tickOneSecond_isSome (c : ClockTime)
    (hm : c.hasDate = true → 1 ≤ c.month ∧ c.month ≤ 12) :
    (tickOneSecond c).isSome = true := by
  simp only [tickOneSecond]
  repeat' split
  all_goals dsimp only at *
  all_goals try rfl
  all_goals rename_i hD hx heq
  all_goals obtain ⟨q1, q2⟩ := hm hD.1
  all_goals have hsome := daysInMonth_isSome c.year c.month q1 q2
  all_goals rw [heq] at hsome
  all_goals exact absurd hsome (by simp)

/-- C2 (counterexample): the nine-character line `12:34:56x` is accepted by
`parseTime` although it matches neither the claim's literal eight-character
`HH:MM:SS` grammar nor the long grammar: the code only requires length at
least 8 and checks the first eight characters, ignoring trailing bytes. -/
theorem parseTime_trailing_junk :
    (parseTime "12:34:56x".toList).isSome = true ∧
    ¬ shortGrammarExact (cstr "12:34:56x".toList) ∧
    ¬ longGrammar (cstr "12:34:56x".toList) := by
  refine ⟨by decide, by decide, by decide⟩

/-- C2 (amended): after trimming, `parseTime` succeeds exactly on the two
fixed-offset grammars — `HH:MM:SS` read from the FIRST EIGHT characters of a
line of length at least 8 (trailing bytes ignored), or `YYYY-MM-DD HH:MM:SS`
on a line of length at least 19 — with all fields range-checked; a
successful parse sets `isSet` and `hasDate` holds exactly for the long
form. -/
theorem parseTime_characterisation (s : List Char) :
    ((parseTime s).isSome = true ↔ shortGrammar (cstr s) ∨ longGrammar (cstr s)) ∧
    ∀ c, parseTime s = some c → c.isSet = true ∧ (c.hasDate = true ↔ longGrammar (cstr s)) :=
  ⟨parseCore_isSome_iff (cstr s), fun c h => parseCore_fields (cstr s) c h⟩

/-- Witness for `parseTime_characterisation` at the concrete line
`07:08:09`. -/
theorem parseTime_characterisation_witness :
    ((parseTime "07:08:09".toList).isSome = true ↔
      shortGrammar (cstr "07:08:09".toList) ∨ longGrammar (cstr "07:08:09".toList)) ∧
    (({ year := 0, month := 0, day := 0, hour := 7, minute := 8, second := 9,
        hasDate := false, isSet := true } : ClockTime).isSet = true ∧
      (({ year := 0, month := 0, day := 0, hour := 7, minute := 8, second := 9,
          hasDate := false, isSet := true } : ClockTime).hasDate = true ↔
        longGrammar (cstr "07:08:09".toList))) := by
  have h := parseTime_characterisation "07:08:09".toList
  exact ⟨h.1, h.2 _ (by decide)⟩

/-- C3 (counterexample): `parseTime` accepts `2024-02-31 00:00:00`,
producing a `hasDate` clock whose `day` (31) exceeds the length of February
2024 (29 days): the parser only checks `1 ≤ day ≤ 31`, so "no February 31"
does not hold for parsed values. -/
theorem parseTime_accepts_feb31 :
    parseTime "2024-02-31 00:00:00".toList =
      some { year := 2024, month := 2, day := 31, hour := 0, minute := 0, second := 0,
             hasDate := true, isSet := true } ∧
    daysInMonth 2024 2 = some 29 := by
  decide

/-- C3 (amended): every successful parse establishes the weaker invariant
the code actually maintains — time-of-day fields in range and, when
`hasDate`, year at least 1970, month 1-12 and day 1-31 (a day/month
combination like February 31 IS allowed) — and this invariant is preserved
by every `tickOneSecond` step. -/
theorem parse_establishes_tick_preserves_inv :
    (∀ s c, parseTime s = some c → ClockInv c) ∧
    (∀ c c', ClockInv c → tickOneSecond c = some c' → ClockInv c') :=
  ⟨fun s c h => parseCore_ClockInv (cstr s) c h, fun c c' hc h => tickOneSecond_inv c c' hc h⟩

/-- Witness for `parse_establishes_tick_preserves_inv`: instantiated at the
line `07:08:09` and at the 2024-02-28 23:59:59 leap-day rollover step. -/
theorem parse_establishes_tick_preserves_inv_witness :
    ClockInv { year := 0, month := 0, day := 0, hour := 7, minute := 8, second := 9,
               hasDate := false, isSet := true } ∧
    ClockInv { year := 2024, month := 2, day := 29, hour := 0, minute := 0, second := 0,
               hasDate := true, isSet := true } := by
  have h := parse_establishes_tick_preserves_inv
  exact ⟨h.1 "07:08:09".toList
      { year := 0, month := 0, day := 0, hour := 7, minute := 8, second := 9,
        hasDate := false, isSet := true } (by decide),
    h.2 { year := 2024, month := 2, day := 28, hour := 23, minute := 59, second := 59,
          hasDate := true, isSet := true }
      { year := 2024, month := 2, day := 29, hour := 0, minute := 0, second := 0,
        hasDate := true, isSet := true } (by decide) (by decide)⟩

/-- The pieces of shared scheduler state the serial-line branch of `loop`
touches: the clock `ct`, the tick reference `lastTickMs`, the forced-repaint
flag `repaintAll`, and the title-strip text `lastStatus`. -/
structure SysState where
  ct : ClockTime
  lastTickMs : Nat
  repaintAll : Bool
  lastStatus : String
deriving Repr, DecidableEq

/-- The complete-line branch of `loop` (the `if (in_i > 0)` block): parse
the line; on success replace `ct` (forcing `isSet`), realign `lastTickMs` to
`now` (`millis()`), request a repaint, set the status text and echo
`SYNCED:`; on failure set the failure status and echo `INVALID:`, leaving
the rest of the state alone. The second component is the list of serial
replies emitted. Being a pure function of `(line, now, st)`, its failure
behaviour is deterministic. -/
def handleLine (line : List Char) (now : Nat) (st : SysState) : SysState × List String :=
  match parseTime line with
  | some parsed =>
    ({ ct := { parsed with isSet := true }, lastTickMs := now, repaintAll := true,
       lastStatus := "Time synced" },
     [String.mk ("SYNCED: ".toList ++ line)])
  | none =>
    ({ st with lastStatus := "Invalid time format!" },
     [String.mk ("INVALID: ".toList ++ line)])

/-- C4: on every line `parseTime` rejects, the handler leaves the shared
clock `ct` (and the tick reference and repaint flag) unchanged and emits
exactly the `INVALID:` echo — no acknowledgment. -/
theorem handleLine_failure (line : List Char) (now : Nat) (st : SysState)
    (h : parseTime line = none) :
    (handleLine line now st).1.ct = st.ct ∧
    (handleLine line now st).1.lastTickMs = st.lastTickMs ∧
    (handleLine line now st).1.repaintAll = st.repaintAll ∧
    (handleLine line now st).2 = [String.mk ("INVALID: ".toList ++ line)] := by
  simp [handleLine, h]

/-- Witness for `handleLine_failure` at the unparseable line `banana`. -/
theorem handleLine_failure_witness :
    (handleLine "banana".toList 5
        { ct := initialCT, lastTickMs := 0, repaintAll := false,
          lastStatus := "Waiting for time" }).1.ct = initialCT ∧
    (handleLine "banana".toList 5
        { ct := initialCT, lastTickMs := 0, repaintAll := false,
          lastStatus := "Waiting for time" }).1.lastTickMs = 0 ∧
    (handleLine "banana".toList 5
        { ct := initialCT, lastTickMs := 0, repaintAll := false,
          lastStatus := "Waiting for time" }).1.repaintAll = false ∧
    (handleLine "banana".toList 5
        { ct := initialCT, lastTickMs := 0, repaintAll := false,
          lastStatus := "Waiting for time" }).2 =
      [String.mk ("INVALID: ".toList ++ "banana".toList)] := by
  have h := handleLine_failure "banana".toList 5
    { ct := initialCT, lastTickMs := 0, repaintAll := false,
      lastStatus := "Waiting for time" } (by decide)
  exact h

/-- The 1 Hz catch-up `while` of `loop`: while at least 1000 ms separate
`ms` (the sampled `millis()`) from the tick reference `lt`, advance the
reference by exactly 1000 and the clock by exactly one second, redrawing
after each advance. The returned list records, in order, every advanced
state that got a `drawTimeDigits` + `drawSecondsBarFill` pass; the returned
`Nat` is the final `lastTickMs`. `none` propagates `tickOneSecond`'s
undefined-behaviour case. -/
def catchUp (ms lt : Nat) (c : ClockTime) : Option (Nat × ClockTime × List ClockTime) :=
  if _h : 1000 ≤ ms - lt then
    (tickOneSecond c).bind fun c' =>
      (catchUp ms (lt + 1000) c').bind fun r => some (r.1, r.2.1, c' :: r.2.2)
  else some (lt, c, [])
termination_by ms - lt
decreasing_by omega

/-- Induction workhorse for the catch-up loop: with `n = ms - lt` as the
measure, the loop performs exactly `(ms - lt) / 1000` single-second
advances. -/
theorem catchUp_aux (n : Nat) : ∀ ms lt c, ms - lt = n → lt ≤ ms → ClockInv c →
    ∃ cF draws, catchUp ms lt c = some (lt + 1000 * ((ms - lt) / 1000), cF, draws) ∧
      draws.length = (ms - lt) / 1000 ∧
      (∀ i, i < draws.length → tickN (i + 1) c = some (draws.getD i c)) ∧
      tickN draws.length c = some cF ∧ ClockInv cF := by
  induction n using Nat.strong_induction_on with
  | _ n ih =>
    intro ms lt c hn hle hc
    by_cases hgo : 1000 ≤ ms - lt
    · obtain ⟨hh0, hh1, hm0, hm1, hs0, hs1, hdate⟩ := hc
      have hts : (tickOneSecond c).isSome = true :=
        tickOneSecond_isSome c (fun hD => ⟨(hdate hD).2.1, (hdate hD).2.2.1⟩)
      obtain ⟨c1, hc1⟩ := Option.isSome_iff_exists.mp hts
      have hinv1 : ClockInv c1 :=
        tickOneSecond_inv c c1 ⟨hh0, hh1, hm0, hm1, hs0, hs1, hdate⟩ hc1
      obtain ⟨cF, draws, ih1, ih2, ih3, ih4, ih5⟩ :=
        ih (ms - (lt + 1000)) (by omega) ms (lt + 1000) c1 rfl (by omega) hinv1
      refine ⟨cF, c1 :: draws, ?_, ?_, ?_, ?_, ih5⟩
      · have e : lt + 1000 * ((ms - lt) / 1000) = lt + 1000 + 1000 * ((ms - (lt + 1000)) / 1000) := by
          omega
        rw [catchUp.eq_def]
        simp [dif_pos hgo, hc1, ih1, e]
      · simp only [List.length_cons, ih2]
        omega
      · intro i hi
        match i with
        | 0 =>
          simp only [List.getD_cons_zero]
          simp [tickN, hc1]
        | j + 1 =>
          have hj : j < draws.length := by simpa using hi
          have e1 : draws.getD j c1 = draws.getD j c := by
            rw [List.getD_eq_getElem _ _ hj, List.getD_eq_getElem _ _ hj]
          have hstep := ih3 j hj
          rw [e1] at hstep
          simp only [List.getD_cons_succ]
          simpa [tickN, hc1] using hstep
      · simp only [List.length_cons]
        simpa [tickN, hc1] using ih4
    · have e : lt + 1000 * ((ms - lt) / 1000) = lt := by omega
      refine ⟨c, [], ?_, by simp; omega, by simp, by simp [tickN], hc⟩
      rw [catchUp.eq_def]
      simp [dif_neg hgo, e]

/-- C5: in a scheduler iteration with the clock set and
`n = (ms - lastTickMs) / 1000` elapsed whole seconds, the catch-up loop
advances the clock exactly one second `n` separate times — the `i`-th
redrawn state is exactly `tickN (i+1)` of the starting clock, so every
intermediate second is visited in order, none skipped or repeated — and
`lastTickMs` grows by exactly `n * 1000`. -/
theorem catchUp_runs_each_second (ms lt : Nat) (c : ClockTime) (hle : lt ≤ ms)
    (hc : ClockInv c) :
    ∃ cF draws, catchUp ms lt c = some (lt + 1000 * ((ms - lt) / 1000), cF, draws) ∧
      draws.length = (ms - lt) / 1000 ∧
      (∀ i, i < draws.length → tickN (i + 1) c = some (draws.getD i c)) ∧
      tickN draws.length c = some cF ∧ ClockInv cF :=
  catchUp_aux (ms - lt) ms lt c rfl hle hc

/-- Witness for `catchUp_runs_each_second`: a 2500 ms gap yields a defined
catch-up run (of two one-second advances). -/
theorem catchUp_runs_each_second_witness :
    (catchUp 2500 0
      { year := 0, month := 0, day := 0, hour := 7, minute := 8, second := 9,
        hasDate := false, isSet := true }).isSome = true := by
  obtain ⟨cF, draws, h1, -⟩ := catchUp_runs_each_second 2500 0
    { year := 0, month := 0, day := 0, hour := 7, minute := 8, second := 9,
      hasDate := false, isSet := true } (by omega) (by decide)
  rw [h1]
  rfl

/-- Config toggle `#define HARD_REFRESH_MINUTES 1`. -/
def HARD_REFRESH_MINUTES : Nat := 1

/-- Config toggle `#define HARD_REFRESH_SECONDS 1`. -/
def HARD_REFRESH_SECONDS : Nat := 1

/-- The seven-segment lookup table `DIGIT_MASK[10]`. -/
def DIGIT_MASK : List Nat :=
  [0b0111111, 0b0000110, 0b1011011, 0b1001111, 0b1100110,
   0b1101101, 0b1111101, 0b0000111, 0b1111111, 0b1101111]

/-- One display-touching action of the rendering engine: a hard digit
refresh (`hardRefreshDigit`: background box fill plus the new mask's
segments), a delta erase/light pass (`drawDigitSegments` on the off/on
masks), a date-region redraw, or a seconds-bar fill/grow/shrink rectangle.
Pixel coordinates are a function of the fixed layout and are omitted. -/
inductive DrawOp where
  | hardDigit (di : Nat) (mask : Nat)
  | eraseSegs (di : Nat) (mask : Nat)
  | lightSegs (di : Nat) (mask : Nat)
  | dateRedraw (line1 : List Char)
  | barInit (w : Int)
  | barGrow (oldW newW : Int)
  | barShrink (newW oldW : Int)
deriving Repr, DecidableEq

/-- The renderer's shadow state: `prevTimeStr`, `prevDigitMask[6]`,
`prevDateStr` and `prevFillW` from the source (-1 = never drawn). -/
structure RenderShadow where
  prevTimeStr : List Char
  prevDigitMask : List Nat
  prevDateStr : List Char
  prevFillW : Int
deriving Repr, DecidableEq

/-- Decimal digit character of `n`'s last digit (how `%02d`/`%04d` renders
each position for the in-range values the clock produces). -/
def digitCh (n : Int) : Char := Char.ofNat (48 + (n % 10).toNat)

/-- `%02d` for `0 ≤ n ≤ 99`. -/
def fmt2 (n : Int) : List Char := [digitCh (n / 10), digitCh n]

/-- `%04d` for `0 ≤ n ≤ 9999`. -/
def fmt4 (n : Int) : List Char :=
  [digitCh (n / 1000), digitCh (n / 100), digitCh (n / 10), digitCh n]

/-- The clock-face text `snprintf(cur, 9, "%02d:%02d:%02d", ...)`. -/
def timeStr (c : ClockTime) : List Char :=
  fmt2 c.hour ++ [':'] ++ fmt2 c.minute ++ [':'] ++ fmt2 c.second

/-- Mask chosen for a character slot in `drawTimeDigits`:
`(c >= '0' && c <= '9') ? DIGIT_MASK[c - '0'] : 0`. -/
def charMask (ch : Char) : Nat :=
  if isDigitN ch = true then DIGIT_MASK.getD (ch.toNat - 48) 0 else 0

/-- `di = (i<2) ? i : (i<5 ? i-1 : i-2)` — string position to digit slot. -/
def digitIndex (i : Nat) : Nat := if i < 2 then i else if i < 5 then i - 1 else i - 2

/-- Which digit slots take the hard-refresh path (hours always; minutes and
seconds per the config toggles, both enabled here). -/
def hardRefreshSel (di : Nat) : Prop :=
  di = 0 ∨ di = 1 ∨ (HARD_REFRESH_MINUTES ≠ 0 ∧ (di = 2 ∨ di = 3)) ∨
    (HARD_REFRESH_SECONDS ≠ 0 ∧ (di = 4 ∨ di = 5))

instance (di : Nat) : Decidable (hardRefreshSel di) := by
  unfold hardRefreshSel
  infer_instance

/-- One iteration of the character loop in `drawTimeDigits`: skip the slot
when the character is unchanged; otherwise hard-refresh or delta-draw the
digit and record the new mask. `acc` carries `prevDigitMask` and the draw
operations issued so far. -/
def stepDigit (cur prev : List Char) (acc : List Nat × List DrawOp) (i : Nat) :
    List Nat × List DrawOp :=
  if chAt cur i = chAt prev i then acc
  else
    let di := digitIndex i
    let newMask := charMask (chAt cur i)
    let oldMask := acc.1.getD di 0
    if hardRefreshSel di then
      (acc.1.set di newMask, acc.2 ++ [DrawOp.hardDigit di newMask])
    else
      let offMask := oldMask &&& (255 ^^^ newMask)
      let onMask := newMask &&& (255 ^^^ oldMask)
      (acc.1.set di newMask,
        acc.2 ++ (if offMask ≠ 0 then [DrawOp.eraseSegs di offMask] else []) ++
          (if onMask ≠ 0 then [DrawOp.lightSegs di onMask] else []))

/-- The non-colon positions of the `for (i=0..7)` loop (`i==2||i==5` is
skipped). -/
def TIME_IDX : List Nat := [0, 1, 3, 4, 6, 7]

/-- `drawTimeDigits`: per-character diff against `prevTimeStr`, then
`strncpy(prevTimeStr, cur, ...)` unconditionally. -/
def drawTimeDigits (c : ClockTime) (sh : RenderShadow) : RenderShadow × List DrawOp :=
  let cur := timeStr c
  let r := TIME_IDX.foldl (stepDigit cur sh.prevTimeStr) (sh.prevDigitMask, [])
  ({ sh with prevTimeStr := cur, prevDigitMask := r.1 }, r.2)

/-- `line1` in `drawDateLine`: `snprintf("%02d-%02d-%04d", day, month,
year)` with zeros substituted via C truthiness when the date is unknown. -/
def dateLine1 (c : ClockTime) : List Char :=
  fmt2 (if c.hasDate = true ∧ c.day ≠ 0 then c.day else 0) ++ ['-'] ++
  fmt2 (if c.hasDate = true ∧ c.month ≠ 0 then c.month else 0) ++ ['-'] ++
  fmt4 (if c.hasDate = true ∧ c.year ≠ 0 then c.year else 0)

/-- `drawDateLine`: redraw (background fill plus both centred text lines,
recorded as one `dateRedraw` op) only when `line1` differs from
`prevDateStr`, then remember `line1`. -/
def drawDateLine (c : ClockTime) (sh : RenderShadow) : RenderShadow × List DrawOp :=
  let line1 := dateLine1 c
  if line1 ≠ sh.prevDateStr then
    ({ sh with prevDateStr := line1 }, [DrawOp.dateRedraw line1])
  else (sh, [])

/-- Arduino's `map()`:
`(x - in_min) * (out_max - out_min) / (in_max - in_min) + out_min` in
truncating `long` arithmetic. -/
def arduinoMap (x inMin inMax outMin outMax : Int) : Int :=
  Int.tdiv ((x - inMin) * (outMax - outMin)) (inMax - inMin) + outMin

/-- The target fill width `map(sec, 0, 59, 0, barW)` computed by
`drawSecondsBarFill`. -/
def secondsFillW (sec barW : Int) : Int := arduinoMap sec 0 59 0 barW

/-- `drawSecondsBarFill`: no-op when the target width equals `prevFillW`;
full initial fill when `prevFillW` is the -1 sentinel; otherwise paint only
the newly revealed strip or background-fill only the newly exposed strip. -/
def drawSecondsBarFill (barW sec : Int) (sh : RenderShadow) : RenderShadow × List DrawOp :=
  let fillW := secondsFillW sec barW
  if fillW = sh.prevFillW then (sh, [])
  else if sh.prevFillW < 0 then ({ sh with prevFillW := fillW }, [DrawOp.barInit fillW])
  else if sh.prevFillW < fillW then
    ({ sh with prevFillW := fillW }, [DrawOp.barGrow sh.prevFillW fillW])
  else ({ sh with prevFillW := fillW }, [DrawOp.barShrink fillW sh.prevFillW])

/-- The C cast `int → uint8_t` at the `drawSecondsBarFill(ct.second)` call. -/
def u8 (n : Int) : Int := n % 256

/-- One redraw pass over the diffed elements — `drawTimeDigits`,
`drawDateLine`, `drawSecondsBarFill` — with the shadow state threaded
through and all draw operations collected. -/
def renderAll (barW : Int) (c : ClockTime) (sh : RenderShadow) : RenderShadow × List DrawOp :=
  let r1 := drawTimeDigits c sh
  let r2 := drawDateLine c r1.1
  let r3 := drawSecondsBarFill barW (u8 c.second) r2.1
  (r3.1, r1.2 ++ r2.2 ++ r3.2)

theorem stepDigit_refl (cur : List Char) (acc : List Nat × List DrawOp) (i : Nat) :
    stepDigit cur cur acc i = acc := by
  unfold stepDigit
  rw [if_pos rfl]

theorem drawTimeDigits_stable (c : ClockTime) (sh : RenderShadow)
    (h : sh.prevTimeStr = timeStr c) : drawTimeDigits c sh = (sh, []) := by
  unfold drawTimeDigits
  rw [← h]
  simp [TIME_IDX, stepDigit_refl]

theorem drawDateLine_stable (c : ClockTime) (sh : RenderShadow)
    (h : sh.prevDateStr = dateLine1 c) : drawDateLine c sh = (sh, []) := by
  unfold drawDateLine
  rw [if_neg]
  simp [h]

theorem drawSecondsBarFill_stable (barW sec : Int) (sh : RenderShadow)
    (h : sh.prevFillW = secondsFillW sec barW) : drawSecondsBarFill barW sec sh = (sh, []) := by
  unfold drawSecondsBarFill
  rw [if_pos h.symm]

theorem renderAll_fields (barW : Int) (c : ClockTime) (sh : RenderShadow) :
    (renderAll barW c sh).1.prevTimeStr = timeStr c ∧
    (renderAll barW c sh).1.prevDateStr = dateLine1 c ∧
    (renderAll barW c sh).1.prevFillW = secondsFillW (u8 c.second) barW := by
  unfold renderAll drawTimeDigits drawDateLine drawSecondsBarFill
  dsimp only
  split_ifs <;> simp_all

/-- C6: rendering the same `ClockTime` twice in succession is idempotent —
given the shadow state produced by the first pass, a second
`drawTimeDigits` + `drawDateLine` + `drawSecondsBarFill` pass with the same
value emits zero draw/erase operations and leaves the shadow unchanged. -/
theorem renderAll_idempotent (barW : Int) (c : ClockTime) (sh : RenderShadow) :
    renderAll barW c ((renderAll barW c sh).1) = ((renderAll barW c sh).1, []) := by
  obtain ⟨f1, f2, f3⟩ := renderAll_fields barW c sh
  generalize hsh : (renderAll barW c sh).1 = sh1 at f1 f2 f3 ⊢
  unfold renderAll
  rw [drawTimeDigits_stable c _ f1]
  dsimp only
  rw [drawDateLine_stable c _ f2]
  dsimp only
  rw [drawSecondsBarFill_stable barW _ _ f3]
  simp

/-- C7: with a fixed bar width, the seconds-bar target fill width is
monotonically non-decreasing in `sec` on `0..59`, and the width drawn for
the successor second `(sec + 1) % 60` can only be smaller than the current
one when the second has just rolled over to 0. -/
theorem secondsFillW_monotone (barW s1 s2 : Int) (hbw : 0 ≤ barW) :
    (0 ≤ s1 → s1 ≤ s2 → s2 ≤ 59 → secondsFillW s1 barW ≤ secondsFillW s2 barW) ∧
    (0 ≤ s1 → s1 ≤ 59 → secondsFillW ((s1 + 1) % 60) barW < secondsFillW s1 barW →
      (s1 + 1) % 60 = 0) := by
  have key : ∀ a b : Int, 0 ≤ a → a ≤ b → secondsFillW a barW ≤ secondsFillW b barW := by
    intro a b ha hab
    unfold secondsFillW arduinoMap
    simp only [sub_zero, add_zero]
    rw [Int.tdiv_eq_ediv (mul_nonneg ha hbw) (by norm_num),
      Int.tdiv_eq_ediv (mul_nonneg (le_trans ha hab) hbw) (by norm_num)]
    exact Int.ediv_le_ediv (by norm_num) (mul_le_mul_of_nonneg_right hab hbw)
  constructor
  · intro h1 h2 _
    exact key s1 s2 h1 h2
  · intro h1 h2 hlt
    by_cases h59 : s1 = 59
    · omega
    · have he : (s1 + 1) % 60 = s1 + 1 := by omega
      rw [he] at hlt
      have := key s1 (s1 + 1) h1 (by omega)
      omega

/-- Witness for `secondsFillW_monotone` at bar width 300, seconds 5 and 7,
and at the 59 → 0 rollover. -/
theorem secondsFillW_monotone_witness :
    secondsFillW 5 300 ≤ secondsFillW 7 300 ∧ ((59 + 1) % 60 : Int) = 0 :=
  ⟨(secondsFillW_monotone 300 5 7 (by norm_num)).1 (by norm_num) (by norm_num) (by norm_num),
   (secondsFillW_monotone 300 59 0 (by norm_num)).2 (by norm_num) (by norm_num) (by decide)⟩

/-- Content of the environment line as composed in `updateEnv`: the boot
empty string, the fixed `TEMP --.- C   HUM -- %` placeholder, or a reading
rendered by `dtostrf(t, 4, 1, ...)` / `dtostrf(h, 3, 0, ...)` — i.e. the
temperature rounded to tenths and the humidity rounded to an integer. The
fixed-width format is injective in these two rounded values, so text
equality is equality of this content. -/
inductive EnvText where
  | empty
  | placeholder
  | reading (tenths : Int) (hum : Int)
deriving Repr, DecidableEq

/-- `updateEnv`'s statics: `lastEnvRead`, the last rendered numeric values
`lastT`/`lastH` (`none` models the initial NaN), and `lastEnvStr`. -/
structure EnvState where
  lastEnvRead : Nat
  lastT : Option ℚ
  lastH : Option ℚ
  lastEnvStr : EnvText
deriving DecidableEq

/-- The composed reading line (sensor floats modelled as exact rationals). -/
def envReadingText (t h : ℚ) : EnvText := EnvText.reading (round (10 * t)) (round h)

/-- `changedValues` in `updateEnv`:
`isnan(lastT) || isnan(lastH) || fabs(t-lastT) >= 0.2 || fabs(h-lastH) >= 1.0`. -/
def envChangedValues (t h : ℚ) : Option ℚ → Option ℚ → Prop
  | some lt, some lh => 1/5 ≤ |t - lt| ∨ 1 ≤ |h - lh|
  | _, _ => True

instance (t h : ℚ) (o1 o2 : Option ℚ) : Decidable (envChangedValues t h o1 o2) :=
  match o1, o2 with
  | some lt, some lh => inferInstanceAs (Decidable (1/5 ≤ |t - lt| ∨ 1 ≤ |h - lh|))
  | none, none => isTrue trivial
  | none, some _ => isTrue trivial
  | some _, none => isTrue trivial

/-- `updateEnv`: rate-limit to one sample per 2000 ms; on a valid reading
redraw when the values moved past the hysteresis thresholds or the composed
text changed (recording the new text and values); on a NaN reading redraw
the placeholder once. The second component counts `drawEnvLine` calls (0 or
1). Sensor floats are modelled as exact rationals. -/
def updateEnv (ms : Nat) (reading : Option (ℚ × ℚ)) (st : EnvState) : EnvState × Nat :=
  if ms - st.lastEnvRead < 2000 then (st, 0)
  else
    match reading with
    | some (h, t) =>
      if envChangedValues t h st.lastT st.lastH ∨ envReadingText t h ≠ st.lastEnvStr then
        ({ st with
            lastEnvRead := ms, lastEnvStr := envReadingText t h,
            lastT := some t, lastH := some h }, 1)
      else ({ st with lastEnvRead := ms }, 0)
    | none =>
      if EnvText.placeholder ≠ st.lastEnvStr then
        ({ st with lastEnvRead := ms, lastEnvStr := EnvText.placeholder }, 1)
      else ({ st with lastEnvRead := ms }, 0)

/-- C8 (amended): a due reading within both hysteresis thresholds of the
last rendered values AND with unchanged composed text triggers no redraw; a
reading crossing either numeric threshold triggers exactly one redraw. -/
theorem updateEnv_hysteresis (ms : Nat) (st : EnvState) (t h lt lh : ℚ)
    (hT : st.lastT = some lt) (hH : st.lastH = some lh)
    (hdue : ¬ ms - st.lastEnvRead < 2000) :
    ((|t - lt| < 1/5 ∧ |h - lh| < 1 ∧ envReadingText t h = st.lastEnvStr) →
      (updateEnv ms (some (h, t)) st).2 = 0) ∧
    ((1/5 ≤ |t - lt| ∨ 1 ≤ |h - lh|) → (updateEnv ms (some (h, t)) st).2 = 1) := by
  constructor
  · rintro ⟨h1, h2, h3⟩
    have hc : ¬ (envChangedValues t h st.lastT st.lastH ∨
        envReadingText t h ≠ st.lastEnvStr) := by
      rintro (hcv | hne)
      · rw [hT, hH] at hcv
        unfold envChangedValues at hcv
        rcases hcv with hx | hx
        · linarith
        · linarith
      · exact hne h3
    unfold updateEnv
    rw [if_neg hdue]
    dsimp only
    rw [if_neg hc]
  · intro hcross
    have hc : envChangedValues t h st.lastT st.lastH ∨
        envReadingText t h ≠ st.lastEnvStr := by
      left
      rw [hT, hH]
      unfold envChangedValues
      exact hcross
    unfold updateEnv
    rw [if_neg hdue]
    dsimp only
    rw [if_pos hc]

/-- Display rounding of 24.26 to one decimal: 24.3 (tenths value 243). -/
theorem round_eval_243 : round ((10 : ℚ) * (1213/50)) = 243 := by
  rw [round_eq, show (10 : ℚ) * (1213/50) + 1/2 = 2431/10 by norm_num]
  rw [Int.floor_eq_iff]
  constructor <;> norm_num

/-- C8 (counterexample): a reading moving only 0.16 degrees (below the 0.2
threshold, humidity unchanged) from the last rendered 24.1 to 24.26 still
triggers a redraw, because the composed text changes from `24.1` to `24.3`
and `updateEnv` also redraws on any text difference. -/
theorem updateEnv_subthreshold_text_redraw :
    (updateEnv 2000 (some (50, 1213/50))
      { lastEnvRead := 0, lastT := some (241/10), lastH := some 50,
        lastEnvStr := EnvText.reading 241 50 }).2 = 1 ∧
    |(1213/50 : ℚ) - 241/10| < 1/5 ∧ |(50 : ℚ) - 50| < 1 := by
  refine ⟨?_, by rw [abs_sub_lt_iff]; constructor <;> norm_num, by norm_num⟩
  have hcond : envChangedValues (1213/50) 50 (some ((241 : ℚ)/10)) (some (50 : ℚ)) ∨
      envReadingText (1213/50) 50 ≠ EnvText.reading 241 50 := by
    right
    unfold envReadingText
    intro hcontra
    injection hcontra with h1 h2
    rw [round_eval_243] at h1
    exact absurd h1 (by norm_num)
  unfold updateEnv
  rw [if_neg (by norm_num)]
  dsimp only
  rw [if_pos hcond]

/-- Display rounding of 24.02 to one decimal: 24.0 (tenths value 240). -/
theorem round_eval_240 : round ((10 : ℚ) * (1201/50)) = 240 := by
  rw [round_eq, show (10 : ℚ) * (1201/50) + 1/2 = 2407/10 by norm_num]
  rw [Int.floor_eq_iff]
  constructor <;> norm_num

/-- Display rounding of 50.3 to an integer: 50. -/
theorem round_eval_50 : round ((503 : ℚ)/10) = 50 := by
  rw [round_eq, show (503 : ℚ)/10 + 1/2 = 508/10 by norm_num]
  rw [Int.floor_eq_iff]
  constructor <;> norm_num

/-- Witness for `updateEnv_hysteresis`: a sub-threshold reading with
unchanged display text causes no redraw. -/
theorem updateEnv_hysteresis_witness :
    (updateEnv 2000 (some (503/10, 1201/50))
      { lastEnvRead := 0, lastT := some 24, lastH := some 50,
        lastEnvStr := EnvText.reading 240 50 }).2 = 0 :=
  (updateEnv_hysteresis 2000
    { lastEnvRead := 0, lastT := some 24, lastH := some 50,
      lastEnvStr := EnvText.reading 240 50 } (1201/50) (503/10) 24 50 rfl rfl
    (by norm_num)).1
    ⟨by rw [abs_sub_lt_iff]; constructor <;> norm_num,
     by rw [abs_sub_lt_iff]; constructor <;> norm_num,
     by unfold envReadingText; rw [round_eval_240, round_eval_50]⟩

/-- The mutable seven-segment geometry globals shrunk by `autoSizeToFit`
(`SEG_HGAP` is part of the composed width but never shrunk). -/
structure Geom where
  E_SP : Int
  COLON_W : Int
  SEG_LEN : Int
  SEG_VLEN : Int
  SEG_THICK : Int
  SEG_HGAP : Int
deriving Repr, DecidableEq

/-- The initial values of the geometry globals. -/
def initGeom : Geom :=
  { E_SP := 2, COLON_W := 8, SEG_LEN := 28, SEG_VLEN := 28, SEG_THICK := 5, SEG_HGAP := 7 }

/-- `totalRowWidth()`: six digit cells (`SEG_LEN + 2*SEG_HGAP` each), two
colons, and seven inter-element gaps. -/
def totalRowWidth (g : Geom) : Int :=
  6 * (g.SEG_LEN + 2 * g.SEG_HGAP) + 2 * g.COLON_W + 7 * g.E_SP

/-- One iteration of the `for` loop in `autoSizeToFit`: `none` is `break`
(fit achieved, or every parameter at its minimum); otherwise the first
shrinkable parameter in priority order — gap, colon width, segment length,
segment vertical length, thickness — is decremented (`continue`). -/
def autoStep (Wd : Int) (g : Geom) : Option Geom :=
  if totalRowWidth g ≤ Wd - 2 * 6 then none
  else if 0 < g.E_SP then some { g with E_SP := g.E_SP - 1 }
  else if 4 < g.COLON_W then some { g with COLON_W := g.COLON_W - 1 }
  else if 16 < g.SEG_LEN then some { g with SEG_LEN := g.SEG_LEN - 1 }
  else if 16 < g.SEG_VLEN then some { g with SEG_VLEN := g.SEG_VLEN - 1 }
  else if 4 < g.SEG_THICK then some { g with SEG_THICK := g.SEG_THICK - 1 }
  else none

/-- The `for (g = 0; g < 200; ++g)` loop: at most the given number of
iterations of `autoStep`. -/
def autoSizeLoop (Wd : Int) : Nat → Geom → Geom
  | 0, g => g
  | n + 1, g =>
    match autoStep Wd g with
    | none => g
    | some g2 => autoSizeLoop Wd n g2

/-- `autoSizeToFit()`: the shrink loop with its 200-iteration bound. -/
def autoSizeToFit (Wd : Int) (g : Geom) : Geom := autoSizeLoop Wd 200 g

/-- Total remaining shrink capacity — each iteration that shrinks reduces
this by exactly one, bounding the loop (31 from the initial geometry). -/
def geomSlack (g : Geom) : Nat :=
  g.E_SP.toNat + (g.COLON_W - 4).toNat + (g.SEG_LEN - 16).toNat + (g.SEG_VLEN - 16).toNat +
    (g.SEG_THICK - 4).toNat

/-- Every shrinkable parameter at (or below) its `MIN_*` floor. -/
def atMinimums (g : Geom) : Prop :=
  g.E_SP ≤ 0 ∧ g.COLON_W ≤ 4 ∧ g.SEG_LEN ≤ 16 ∧ g.SEG_VLEN ≤ 16 ∧ g.SEG_THICK ≤ 4

instance (g : Geom) : Decidable (atMinimums g) := by
  unfold atMinimums
  infer_instance

/-- Every parameter at or above its `MIN_*` floor (holds initially and is
preserved: the loop never shrinks below a minimum). -/
def minOK (g : Geom) : Prop :=
  0 ≤ g.E_SP ∧ 4 ≤ g.COLON_W ∧ 16 ≤ g.SEG_LEN ∧ 16 ≤ g.SEG_VLEN ∧ 4 ≤ g.SEG_THICK

instance (g : Geom) : Decidable (minOK g) := by
  unfold minOK
  infer_instance

/-- A shrinking iteration happens only while the row overflows, and
decrements exactly one parameter — the first in the strict priority order
gap, colon, segment length, segment vertical length, thickness — only when
it is strictly above its minimum. -/
theorem autoStep_some (Wd : Int) (g g2 : Geom) (h : autoStep Wd g = some g2) :
    Wd - 12 < totalRowWidth g ∧
    ((0 < g.E_SP ∧ g2 = { g with E_SP := g.E_SP - 1 }) ∨
     (g.E_SP ≤ 0 ∧ 4 < g.COLON_W ∧ g2 = { g with COLON_W := g.COLON_W - 1 }) ∨
     (g.E_SP ≤ 0 ∧ g.COLON_W ≤ 4 ∧ 16 < g.SEG_LEN ∧ g2 = { g with SEG_LEN := g.SEG_LEN - 1 }) ∨
     (g.E_SP ≤ 0 ∧ g.COLON_W ≤ 4 ∧ g.SEG_LEN ≤ 16 ∧ 16 < g.SEG_VLEN ∧
       g2 = { g with SEG_VLEN := g.SEG_VLEN - 1 }) ∨
     (g.E_SP ≤ 0 ∧ g.COLON_W ≤ 4 ∧ g.SEG_LEN ≤ 16 ∧ g.SEG_VLEN ≤ 16 ∧ 4 < g.SEG_THICK ∧
       g2 = { g with SEG_THICK := g.SEG_THICK - 1 })) := by
  unfold autoStep at h
  split_ifs at h with h1 h2 h3 h4 h5 h6
  all_goals injection h with h
  all_goals subst h
  · exact ⟨by omega, Or.inl ⟨h2, rfl⟩⟩
  · exact ⟨by omega, Or.inr (Or.inl ⟨by omega, h3, rfl⟩)⟩
  · exact ⟨by omega, Or.inr (Or.inr (Or.inl ⟨by omega, by omega, h4, rfl⟩))⟩
  · exact ⟨by omega, Or.inr (Or.inr (Or.inr (Or.inl ⟨by omega, by omega, by omega, h5, rfl⟩)))⟩
  · exact ⟨by omega, Or.inr (Or.inr (Or.inr (Or.inr ⟨by omega, by omega, by omega, by omega,
      h6, rfl⟩)))⟩

/-- The loop breaks only on a fit or with every parameter at its floor. -/
theorem autoStep_none (Wd : Int) (g : Geom) (h : autoStep Wd g = none) :
    totalRowWidth g ≤ Wd - 12 ∨ atMinimums g := by
  unfold autoStep at h
  split_ifs at h with h1 h2 h3 h4 h5 h6
  · left
    omega
  · right
    exact ⟨by omega, by omega, by omega, by omega, by omega⟩

/-- With fuel at least the remaining shrink capacity, the loop ends in a
fit or with all parameters at their minimums. -/
theorem autoSizeLoop_post (Wd : Int) :
    ∀ n g, geomSlack g ≤ n →
      totalRowWidth (autoSizeLoop Wd n g) ≤ Wd - 12 ∨ atMinimums (autoSizeLoop Wd n g) := by
  intro n
  induction n with
  | zero =>
    intro g hs
    unfold geomSlack at hs
    right
    unfold autoSizeLoop atMinimums
    omega
  | succ n ih =>
    intro g hs
    unfold autoSizeLoop
    cases hstep : autoStep Wd g with
    | none => exact autoStep_none Wd g hstep
    | some g2 =>
      apply ih
      obtain ⟨-, hcase⟩ := autoStep_some Wd g g2 hstep
      unfold geomSlack at hs ⊢
      rcases hcase with ⟨hq, rfl⟩ | ⟨hq1, hq2, rfl⟩ | ⟨hq1, hq2, hq3, rfl⟩ |
        ⟨hq1, hq2, hq3, hq4, rfl⟩ | ⟨hq1, hq2, hq3, hq4, hq5, rfl⟩ <;>
        dsimp only <;> omega

/-- The loop never takes a parameter below its minimum. -/
theorem autoSizeLoop_minOK (Wd : Int) :
    ∀ n g, minOK g → minOK (autoSizeLoop Wd n g) := by
  intro n
  induction n with
  | zero =>
    intro g hg
    exact hg
  | succ n ih =>
    intro g hg
    unfold autoSizeLoop
    cases hstep : autoStep Wd g with
    | none => exact hg
    | some g2 =>
      apply ih
      obtain ⟨-, hcase⟩ := autoStep_some Wd g g2 hstep
      unfold minOK at hg ⊢
      rcases hcase with ⟨hq, rfl⟩ | ⟨hq1, hq2, rfl⟩ | ⟨hq1, hq2, hq3, rfl⟩ |
        ⟨hq1, hq2, hq3, hq4, rfl⟩ | ⟨hq1, hq2, hq3, hq4, hq5, rfl⟩ <;>
        dsimp only <;> omega

/-- C9: `autoSizeToFit` terminates within its bounded 200-iteration loop
(the initial shrink capacity is only 31); every shrinking iteration happens
only while the row overflows and shrinks exactly one parameter in strict
priority order — inter-element gap, colon width, segment length, segment
vertical length, segment thickness — never below its minimum; and for every
display width the result either fits within `Wd - 12` or has every
parameter exactly at its minimum (clipped layout, not an error). -/
theorem autoSizeToFit_behaviour :
    (∀ Wd g g2, autoStep Wd g = some g2 → Wd - 12 < totalRowWidth g ∧
      ((0 < g.E_SP ∧ g2 = { g with E_SP := g.E_SP - 1 }) ∨
       (g.E_SP ≤ 0 ∧ 4 < g.COLON_W ∧ g2 = { g with COLON_W := g.COLON_W - 1 }) ∨
       (g.E_SP ≤ 0 ∧ g.COLON_W ≤ 4 ∧ 16 < g.SEG_LEN ∧
         g2 = { g with SEG_LEN := g.SEG_LEN - 1 }) ∨
       (g.E_SP ≤ 0 ∧ g.COLON_W ≤ 4 ∧ g.SEG_LEN ≤ 16 ∧ 16 < g.SEG_VLEN ∧
         g2 = { g with SEG_VLEN := g.SEG_VLEN - 1 }) ∨
       (g.E_SP ≤ 0 ∧ g.COLON_W ≤ 4 ∧ g.SEG_LEN ≤ 16 ∧ g.SEG_VLEN ≤ 16 ∧ 4 < g.SEG_THICK ∧
         g2 = { g with SEG_THICK := g.SEG_THICK - 1 }))) ∧
    (∀ Wd, totalRowWidth (autoSizeToFit Wd initGeom) ≤ Wd - 12 ∨
      ((autoSizeToFit Wd initGeom).E_SP = 0 ∧ (autoSizeToFit Wd initGeom).COLON_W = 4 ∧
       (autoSizeToFit Wd initGeom).SEG_LEN = 16 ∧ (autoSizeToFit Wd initGeom).SEG_VLEN = 16 ∧
       (autoSizeToFit Wd initGeom).SEG_THICK = 4)) := by
  constructor
  · exact autoStep_some
  · intro Wd
    have hpost := autoSizeLoop_post Wd 200 initGeom (by decide)
    have hmin := autoSizeLoop_minOK Wd 200 initGeom (by decide)
    unfold autoSizeToFit
    rcases hpost with hfit | hmins
    · exact Or.inl hfit
    · right
      obtain ⟨a1, a2, a3, a4, a5⟩ := hmins
      obtain ⟨b1, b2, b3, b4, b5⟩ := hmin
      exact ⟨by omega, by omega, by omega, by omega, by omega⟩

/-- Witness for `autoSizeToFit_behaviour`: a width-100 display forces a
first shrink of the inter-element gap; a width-480 display yields the
fit-or-minimums postcondition. -/
theorem autoSizeToFit_behaviour_witness :
    ((100 : Int) - 12 < totalRowWidth initGeom) ∧
    (totalRowWidth (autoSizeToFit 480 initGeom) ≤ 480 - 12 ∨
      ((autoSizeToFit 480 initGeom).E_SP = 0 ∧ (autoSizeToFit 480 initGeom).COLON_W = 4 ∧
       (autoSizeToFit 480 initGeom).SEG_LEN = 16 ∧ (autoSizeToFit 480 initGeom).SEG_VLEN = 16 ∧
       (autoSizeToFit 480 initGeom).SEG_THICK = 4)) :=
  ⟨(autoSizeToFit_behaviour.1 100 initGeom { initGeom with E_SP := 1 } (by decide)).1,
   autoSizeToFit_behaviour.2 480⟩

/-- Clock values the shared `ct` can hold: the zero boot value, a value
installed by the serial handler after a successful parse (`isSet` forced),
or the result of a 1 Hz `tickOneSecond` advance of a reachable value. -/
inductive ReachableCT : ClockTime → Prop where
  | init : ReachableCT initialCT
  | sync (s : List Char) (c : ClockTime) (h : parseTime s = some c) :
      ReachableCT { c with isSet := true }
  | tick (c c' : ClockTime) (hr : ReachableCT c) (h : tickOneSecond c = some c') :
      ReachableCT c'

/-- C10: in every state reachable from startup, `hasDate` implies the month
is in 1-12 — so the `d[m-1]` lookup inside `daysInMonth` is in bounds
(`isSome`) — and `tickOneSecond` never hits its undefined-behaviour path:
`hasDate` only arises from a successful long-form parse, which validates
the month, and ticking preserves the range. -/
theorem reachable_daysInMonth_safe (c : ClockTime) (hr : ReachableCT c) :
    (c.hasDate = true → 1 ≤ c.month ∧ c.month ≤ 12 ∧
      (daysInMonth c.year c.month).isSome = true) ∧
    (tickOneSecond c).isSome = true := by
  have hinv : ClockInv c := by
    induction hr with
    | init => decide
    | sync s c0 h =>
      have h2 := parseCore_ClockInv (cstr s) c0 h
      unfold ClockInv at h2 ⊢
      simpa using h2
    | tick c0 c' hr0 h ih => exact tickOneSecond_inv c0 c' ih h
  have hm : c.hasDate = true → 1 ≤ c.month ∧ c.month ≤ 12 := fun hD =>
    ⟨(hinv.2.2.2.2.2.2 hD).2.1, (hinv.2.2.2.2.2.2 hD).2.2.1⟩
  refine ⟨fun hD => ⟨(hm hD).1, (hm hD).2, daysInMonth_isSome c.year c.month (hm hD).1 (hm hD).2⟩,
    tickOneSecond_isSome c hm⟩

/-- Witness for `reachable_daysInMonth_safe` at the boot state. -/
theorem reachable_daysInMonth_safe_witness :
    ((initialCT.hasDate = true → 1 ≤ initialCT.month ∧ initialCT.month ≤ 12 ∧
      (daysInMonth initialCT.year initialCT.month).isSome = true) ∧
    (tickOneSecond initialCT).isSome = true) :=
  reachable_daysInMonth_safe initialCT ReachableCT.init
